import Mathlib

/-!
Verification of the image-enhancement and response-recovery core of the
imageEnhancer service against its specification.

The pure numeric transforms of `app/services/enhancer.py`, the DnCNN model of
`app/models/dncnn.py`, the downscale step of `app/routers/extract.py`, and the
JSON-recovery/validation logic of `app/routers/translate.py`,
`app/routers/datagen.py` and `app/services/openai_client.py` are shallowly
embedded below.  8-bit pixel values are `ℕ`, exact pixel arithmetic is over
`ℚ` (the float arithmetic of cv2/numpy is idealized as exact rational
arithmetic; for every constant used by the code the rounded results agree),
and the Gaussian kernel of the sharpening stage is over `ℝ` since its weights
are values of `Real.exp`.
-/

namespace ImageEnhancer

/-! ## Brightness normalization (app/services/enhancer.py, lines 46-52) -/

/-- `cv2.convertScaleAbs(img, alpha, beta)`: per pixel
`saturate_cast<uchar>(|alpha*p + beta|)` — the scaled value's absolute value,
rounded to the nearest integer and saturated at 255.  For the factors used by
the repository (`alpha = 1.2` or `1.4`, integer `beta`) the scaled value is
never an exact half-integer, so the tie-breaking rule of `cvRound` is
irrelevant and Mathlib's `round` is a faithful model. -/
def convertScaleAbs (alpha beta : ℚ) (img : List ℕ) : List ℕ :=
  img.map fun (p : ℕ) => (min (round |alpha * (p : ℚ) + beta|) 255).toNat

/-- `img.mean()`: exact rational mean over all pixels. -/
def meanVal (img : List ℕ) : ℚ := (img.sum : ℚ) / (img.length : ℚ)

/-- Lines 46-52 of `enhance_image`: three-way piecewise brightness
normalization selected by the image mean. -/
def normalizeStage (img : List ℕ) : List ℕ :=
  if meanVal img > 120 then convertScaleAbs (6/5) (-20) img
  else if meanVal img < 80 then convertScaleAbs (7/5) 0 img
  else convertScaleAbs (6/5) 0 img

/-- The per-pixel remap as the specification words it:
`clamp(alpha*p + beta, 0, 255)`, clamping the affine value at 0 from below
(instead of taking its absolute value). -/
def specClampPix (alpha beta : ℚ) (p : ℕ) : ℕ :=
  (min (max (round (alpha * (p : ℚ) + beta)) 0) 255).toNat

/-- Brightness normalization exactly as claim C1 states it. -/
def specNormalize (img : List ℕ) : List ℕ :=
  if meanVal img > 120 then img.map (specClampPix (6/5) (-20))
  else if meanVal img < 80 then img.map (specClampPix (7/5) 0)
  else img.map (specClampPix (6/5) 0)

/-- Helper: a nonnegative rational rounds to a nonnegative integer. -/
theorem round_nonneg_of_nonneg {q : ℚ} (h : 0 ≤ q) : 0 ≤ round q := by
  rw [round_eq]
  exact Int.floor_nonneg.mpr (by linarith)

theorem meanVal_pair_0_255 : meanVal [0, 255] = 255 / 2 := by
  norm_num [meanVal]

theorem normalizeStage_pair_0_255 : normalizeStage [0, 255] = [20, 255] := by
  rw [normalizeStage, if_pos (by rw [meanVal_pair_0_255]; norm_num)]
  rw [convertScaleAbs]
  simp only [List.map_cons, List.map_nil]
  norm_num [round_eq]
  decide

theorem specNormalize_pair_0_255 : specNormalize [0, 255] = [0, 255] := by
  rw [specNormalize, if_pos (by rw [meanVal_pair_0_255]; norm_num)]
  simp only [List.map_cons, List.map_nil, specClampPix]
  norm_num [round_eq]
  decide

/-- C1, counterexample.  On the two-pixel image `[0, 255]` the mean is
`127.5 > 120`; the code (`convertScaleAbs`) sends pixel 0 to
`round |1.2*0 - 20| = 20`, while the claimed remap `clamp(1.2*p - 20, 0, 255)`
sends it to 0.  The two disagree. -/
theorem normalize_bright_branch_claim_false :
    meanVal [0, 255] > 120 ∧
    normalizeStage [0, 255] = [20, 255] ∧
    specNormalize [0, 255] = [0, 255] ∧
    normalizeStage [0, 255] ≠ specNormalize [0, 255] := by
  refine ⟨by rw [meanVal_pair_0_255]; norm_num, normalizeStage_pair_0_255,
    specNormalize_pair_0_255, ?_⟩
  rw [normalizeStage_pair_0_255, specNormalize_pair_0_255]
  decide

/-- C1, amended.  The brightness-normalization stage computes the mean `m`
over all pixels and maps every pixel `p` to
`min(round |1.2*p - 20|, 255)` when `m > 120` (the affine value's absolute
value is saturated, it is not clamped at 0 from below), to
`clamp(1.4*p, 0, 255)` when `m < 80`, and to `clamp(1.2*p, 0, 255)` otherwise
— with exactly the thresholds 120, 80 and coefficients 1.2, -20, 1.4.
The two no-offset branches agree with the claim's clamp formula because their
affine values are nonnegative. -/
theorem normalize_piecewise_formula (img : List ℕ) :
    normalizeStage img =
      if meanVal img > 120 then
        img.map fun (p : ℕ) => (min (round |6/5 * (p : ℚ) + (-20)|) 255).toNat
      else if meanVal img < 80 then img.map (specClampPix (7/5) 0)
      else img.map (specClampPix (6/5) 0) := by
  have habs : ∀ alpha : ℚ, 0 ≤ alpha →
      convertScaleAbs alpha 0 img = img.map (specClampPix alpha 0) := by
    intro alpha ha
    rw [convertScaleAbs]
    apply List.map_congr_left
    intro p _
    have hnn : (0 : ℚ) ≤ alpha * (p : ℚ) + 0 := by positivity
    rw [specClampPix, abs_of_nonneg hnn,
      max_eq_left (round_nonneg_of_nonneg hnn)]
  by_cases h1 : meanVal img > 120
  · rw [normalizeStage, if_pos h1, if_pos h1]
    rfl
  · by_cases h2 : meanVal img < 80
    · rw [normalizeStage, if_neg h1, if_neg h1, if_pos h2, if_pos h2]
      exact habs (7/5) (by norm_num)
    · rw [normalizeStage, if_neg h1, if_neg h1, if_neg h2, if_neg h2]
      exact habs (6/5) (by norm_num)

/-- Per-pixel bound for the bright branch: the remapped value exceeds the
input pixel by at most 26 (the worst case is pixel 229, sent to 255). -/
theorem convertScaleAbs_bright_pix_le (p : ℕ) :
    (min (round |6/5 * (p : ℚ) + (-20)|) 255).toNat ≤ p + 26 := by
  rcases le_or_lt p 229 with hp | hp
  · have hp0 : (0 : ℚ) ≤ (p : ℚ) := Nat.cast_nonneg p
    have hp' : (p : ℚ) ≤ 229 := by exact_mod_cast hp
    have h1 : |6/5 * (p : ℚ) + (-20)| < (p : ℚ) + 26 + 1/2 := by
      rw [abs_lt]
      constructor
      · linarith
      · linarith
    have h2 : round |6/5 * (p : ℚ) + (-20)| ≤ (p : ℤ) + 26 := by
      rw [round_eq]
      have hf : ⌊|6/5 * (p : ℚ) + (-20)| + 1/2⌋ < (p : ℤ) + 27 := by
        apply Int.floor_lt.mpr
        push_cast
        linarith
      omega
    have h3 : min (round |6/5 * (p : ℚ) + (-20)|) 255 ≤ (p : ℤ) + 26 :=
      le_trans (min_le_left _ _) h2
    apply Int.toNat_le.mpr
    refine le_trans h3 ?_
    push_cast
    omega
  · have h3 : min (round |6/5 * (p : ℚ) + (-20)|) 255 ≤ 255 := min_le_right _ _
    apply Int.toNat_le.mpr
    refine le_trans h3 ?_
    push_cast
    omega

/-- Summed form of the per-pixel bound. -/
theorem convertScaleAbs_bright_sum_le (img : List ℕ) :
    (convertScaleAbs (6/5) (-20) img).sum ≤ img.sum + 26 * img.length := by
  induction img with
  | nil => simp [convertScaleAbs]
  | cons p rest ih =>
    have hp := convertScaleAbs_bright_pix_le p
    simp only [convertScaleAbs, List.map_cons, List.sum_cons, List.length_cons]
      at ih ⊢
    calc (min (round |6/5 * (p : ℚ) + (-20)|) 255).toNat
          + (rest.map fun (q : ℕ) =>
              (min (round |6/5 * (q : ℚ) + (-20)|) 255).toNat).sum
        ≤ (p + 26) + (rest.sum + 26 * rest.length) := Nat.add_le_add hp ih
      _ = p + rest.sum + 26 * (rest.length + 1) := by ring

theorem meanVal_single_200 : meanVal [200] = 200 := by
  norm_num [meanVal]

theorem normalizeStage_single_200 : normalizeStage [200] = [220] := by
  rw [normalizeStage, if_pos (by rw [meanVal_single_200]; norm_num)]
  rw [convertScaleAbs]
  simp only [List.map_cons, List.map_nil]
  norm_num [round_eq]
  decide

/-- C3, counterexample.  The one-pixel image `[200]` has mean `200 > 120`;
the bright branch sends 200 to `round(1.2*200 - 20) = 220`, so the output
mean 220 exceeds the input mean 200: the claimed inequality
"output mean ≤ input mean" fails. -/
theorem normalize_mean_decrease_claim_false :
    meanVal [200] > 120 ∧
    normalizeStage [200] = [220] ∧
    ¬ meanVal (normalizeStage [200]) ≤ meanVal [200] := by
  refine ⟨by rw [meanVal_single_200]; norm_num, normalizeStage_single_200, ?_⟩
  rw [normalizeStage_single_200, meanVal_single_200]
  norm_num [meanVal]

/-- C3, amended.  For every image with mean sample value greater than 120, the
mean of the brightness-normalization output is at most the input mean plus 26
(the bright branch can raise pixels — pixel values 103 and above increase —
but never by more than 26 per pixel). -/
theorem normalize_bright_mean_le (img : List ℕ) (h : meanVal img > 120) :
    meanVal (normalizeStage img) ≤ meanVal img + 26 := by
  have hne : img.length ≠ 0 := by
    intro h0
    rw [List.length_eq_zero] at h0
    rw [h0] at h
    norm_num [meanVal] at h
  have hlen : (0 : ℚ) < (img.length : ℚ) := by
    exact_mod_cast Nat.pos_of_ne_zero hne
  rw [normalizeStage, if_pos h]
  have hsum := convertScaleAbs_bright_sum_le img
  have hlens : (convertScaleAbs (6/5) (-20) img).length = img.length := by
    simp [convertScaleAbs]
  have hcast : ((convertScaleAbs (6/5) (-20) img).sum : ℚ)
      ≤ (img.sum : ℚ) + 26 * (img.length : ℚ) := by
    exact_mod_cast hsum
  rw [meanVal, meanVal, hlens]
  rw [div_le_iff₀ hlen]
  calc ((convertScaleAbs (6/5) (-20) img).sum : ℚ)
      ≤ (img.sum : ℚ) + 26 * (img.length : ℚ) := hcast
    _ = ((img.sum : ℚ) / (img.length : ℚ) + 26) * (img.length : ℚ) := by
        field_simp

/-- Witness for `normalize_bright_mean_le` at the concrete image `[200]`. -/
theorem normalize_bright_mean_le_witness :
    meanVal [200] > 120 ∧
    meanVal (normalizeStage [200]) ≤ meanVal [200] + 26 :=
  ⟨by rw [meanVal_single_200]; norm_num,
    normalize_bright_mean_le [200] (by rw [meanVal_single_200]; norm_num)⟩

/-! ## Caller-invoked downscale (app/routers/extract.py, lines 24-32) -/

/-- A single-channel raster image: dimensions plus an 8-bit pixel buffer
(row, column). -/
structure RawImage where
  h : ℕ
  w : ℕ
  pix : ℕ → ℕ → ℕ

/-- Lines 24-32 of `extract_vin`: when the larger dimension exceeds 1600 the
image is resized to `(int(w*scale), int(h*scale))` with
`scale = 1600 / max(h, w)`, using `cv2.INTER_AREA` resampling.
`interArea src w' h' i j` stands for pixel `(i, j)` of the buffer produced by
`cv2.resize(src, (w', h'), interpolation=cv2.INTER_AREA)`; the area-averaging
arithmetic itself is opaque to the claims, but `cv2.resize` returns a buffer
of exactly the requested dimensions, which the embedding records.
`int(w * scale)` truncates a nonnegative product, i.e. it is the floor
`w * 1600 / max(h, w)`, which is exact natural division. -/
def downscaleStep (interArea : RawImage → ℕ → ℕ → ℕ → ℕ → ℕ)
    (img : RawImage) : RawImage :=
  if 1600 < max img.h img.w then
    let m := max img.h img.w
    let w' := img.w * 1600 / m
    let h' := img.h * 1600 / m
    { h := h', w := w', pix := interArea img w' h' }
  else img

/-- The larger output dimension of the downscale step never exceeds 1600. -/
theorem downscaleStep_max_le (interArea : RawImage → ℕ → ℕ → ℕ → ℕ → ℕ)
    (img : RawImage) :
    max (downscaleStep interArea img).h (downscaleStep interArea img).w
      ≤ 1600 := by
  rw [downscaleStep]
  by_cases hc : 1600 < max img.h img.w
  · rw [if_pos hc]
    have hm : 0 < max img.h img.w := lt_trans (by norm_num) hc
    have hh : img.h * 1600 / max img.h img.w ≤ 1600 := by
      calc img.h * 1600 / max img.h img.w
          ≤ max img.h img.w * 1600 / max img.h img.w :=
            Nat.div_le_div_right (Nat.mul_le_mul_right 1600 (le_max_left _ _))
        _ = 1600 := Nat.mul_div_cancel_left 1600 hm
    have hw : img.w * 1600 / max img.h img.w ≤ 1600 := by
      calc img.w * 1600 / max img.h img.w
          ≤ max img.h img.w * 1600 / max img.h img.w :=
            Nat.div_le_div_right (Nat.mul_le_mul_right 1600 (le_max_right _ _))
        _ = 1600 := Nat.mul_div_cancel_left 1600 hm
    exact max_le hh hw
  · rw [if_neg hc]
    exact le_of_not_lt hc

/-- C8.  The downscale step is idempotent — after one application the larger
dimension is at most 1600, so the guard rejects a second resize and the image
passes through unchanged — and its output's larger dimension never exceeds
1600. -/
theorem downscaleStep_idempotent_and_bounded
    (interArea : RawImage → ℕ → ℕ → ℕ → ℕ → ℕ) (img : RawImage) :
    downscaleStep interArea (downscaleStep interArea img)
      = downscaleStep interArea img ∧
    max (downscaleStep interArea img).h (downscaleStep interArea img).w
      ≤ 1600 := by
  refine ⟨?_, downscaleStep_max_le interArea img⟩
  have hb := downscaleStep_max_le interArea img
  rw [downscaleStep]
  rw [if_neg (not_lt_of_le hb)]

/-! ## Translate endpoint early return (app/routers/translate.py, lines 35-67) -/

/-- Line 11 of app/routers/translate.py. -/
def VALID_LANGUAGES : List String := ["ru", "en", "uz", "kz", "ko"]

/-- Outcome of the input-validation prefix of `translate_text`: an HTTP 400
rejection, an immediate JSON response that skips the OpenAI call, or the
target-code list handed to the generator. -/
inductive TranslateDecision where
  | badRequest (detail : String)
  | immediate (translations : List (String × String))
  | callGenerator (targets : List String)
  deriving DecidableEq

/-- Lines 35-67 of `translate_text`: field validation, language-code
validation, removal of the source code from the target list, and the early
return when nothing remains to translate.  A missing or empty `source` /
`text` field is modelled as the empty string and a missing `targets` as the
empty list (Python falsiness); the request's parsed fields are the inputs. -/
def translateEarly (source text : String) (targets : List String) :
    TranslateDecision :=
  if source = "" then .badRequest "'source' field is required"
  else if text = "" then .badRequest "'text' field is required"
  else if targets = [] then .badRequest "'targets' must be a non-empty array"
  else if ¬ source ∈ VALID_LANGUAGES then
    .badRequest "Invalid source language code. Must be one of: ['ru', 'en', 'uz', 'kz', 'ko']"
  else
    match targets.find? (fun t => !(VALID_LANGUAGES.contains t)) with
    | some t => .badRequest ("Invalid target language code '" ++ t
        ++ "'. Must be one of: ['ru', 'en', 'uz', 'kz', 'ko']")
    | none =>
      let remaining := targets.filter (fun t => t != source)
      if remaining = [] then .immediate [(source, text)]
      else .callGenerator remaining

/-- C10.  A valid translate request all of whose targets equal the source
language returns `{"translations": {source: text}}` immediately, without
reaching the generator call. -/
theorem translate_same_language_immediate
    (source text : String) (targets : List String)
    (hs : source ∈ VALID_LANGUAGES) (ht : text ≠ "") (hne : targets ≠ [])
    (hall : ∀ t ∈ targets, t = source) :
    translateEarly source text targets
      = TranslateDecision.immediate [(source, text)] := by
  have hsne : source ≠ "" := by
    intro h
    rw [h] at hs
    simp [VALID_LANGUAGES] at hs
  rw [translateEarly, if_neg hsne, if_neg ht, if_neg hne,
    if_neg (by simp only [not_not]; exact hs)]
  have hfind : targets.find? (fun t => !(VALID_LANGUAGES.contains t)) = none := by
    apply List.find?_eq_none.mpr
    intro t htl
    rw [hall t htl]
    have hc : VALID_LANGUAGES.contains source = true := List.elem_iff.mpr hs
    simp [hc]
    exact hs
  rw [hfind]
  have hfilter : targets.filter (fun t => t != source) = [] := by
    apply List.filter_eq_nil_iff.mpr
    intro t htl
    simp [hall t htl]
  simp [hfilter]

/-- Witness for `translate_same_language_immediate` at a concrete request. -/
theorem translate_same_language_immediate_witness :
    translateEarly "ru" "Мерседес" ["ru"]
      = TranslateDecision.immediate [("ru", "Мерседес")] :=
  translate_same_language_immediate "ru" "Мерседес" ["ru"]
    (by decide) (by decide) (by decide) (by decide)

/-! ## Language-map validation and repair (app/routers/translate.py)

Parsed JSON objects whose values are strings are modelled as association
lists; `k in obj` is membership of `k` among the keys.  Error strings render
Python's list interpolation as the comma-separated codes. -/

/-- Whether a recovery step succeeded. -/
def exceptIsOk {ε α : Type} : Except ε α → Bool
  | .ok _ => true
  | .error _ => false

/-- Lines 136-138 of `translate_text`: every requested target code must be a
key of the parsed object; otherwise the call fails with a `ValueError` that
becomes an HTTP 500 (`Missing translations for: …`). -/
def validateTranslations (targets : List String)
    (parsed : List (String × String)) :
    Except String (List (String × String)) :=
  let missing := targets.filter (fun t => !((parsed.map Prod.fst).contains t))
  if missing ≠ [] then
    .error ("Missing translations for: " ++ String.intercalate ", " missing)
  else .ok parsed

/-- Lines 288-294 of `generate_listing`: a `text.<field>` language map must
contain every declared language code; otherwise the call fails. -/
def validateTextField (fieldName : String)
    (fieldData : List (String × String)) : Except String Unit :=
  let missing :=
    VALID_LANGUAGES.filter (fun l => !((fieldData.map Prod.fst).contains l))
  if missing ≠ [] then
    .error ("text." ++ fieldName ++ " missing languages: "
      ++ String.intercalate ", " missing)
  else .ok ()

/-- Lines 319-324 of `generate_listing`: declared language codes missing from
`inspectionHistory.maintenanceHistory` are filled in with the empty string
(repair, not failure). -/
def repairMaintenanceHistory (m : List (String × String)) :
    List (String × String) :=
  m ++ (VALID_LANGUAGES.filter
    (fun l => !((m.map Prod.fst).contains l))).map (fun l => (l, ""))

/-- C4, counterexample.  For the successfully parsed object `{"ko": "hello"}`
and the declared target set `["en"]`, the code does not insert `"en"` with a
default value: `translate_text`'s validation fails the whole call.  A missing
declared code does cause the recovery call to fail. -/
theorem missing_code_repair_claim_false :
    validateTranslations ["en"] [("ko", "hello")]
      = Except.error "Missing translations for: en" := by
  rfl

/-- C4, amended.  Only `inspectionHistory.maintenanceHistory` is repaired:
every declared code missing from it is inserted with the empty string and the
existing entries are kept.  In `translate_text`'s translations map and in
`generate_listing`'s `text.*` fields, a missing declared code causes the call
to fail instead. -/
theorem language_map_validation_behavior :
    (∀ targets parsed t, t ∈ targets → ¬ t ∈ parsed.map Prod.fst →
      exceptIsOk (validateTranslations targets parsed) = false) ∧
    (∀ name fieldData l, l ∈ VALID_LANGUAGES → ¬ l ∈ fieldData.map Prod.fst →
      exceptIsOk (validateTextField name fieldData) = false) ∧
    (∀ m : List (String × String),
      (∀ l ∈ VALID_LANGUAGES, l ∈ (repairMaintenanceHistory m).map Prod.fst) ∧
      (∀ l ∈ VALID_LANGUAGES, ¬ l ∈ m.map Prod.fst →
        (l, "") ∈ repairMaintenanceHistory m) ∧
      (∀ kv ∈ m, kv ∈ repairMaintenanceHistory m)) := by
  have hmem : ∀ (t : String) (keys : List String), ¬ t ∈ keys →
      (!(keys.contains t)) = true := by
    intro t keys h
    simp only [Bool.not_eq_true']
    cases hb : keys.contains t
    · rfl
    · exact absurd (List.elem_iff.mp hb) h
  refine ⟨?_, ?_, ?_⟩
  · intro targets parsed t ht hmiss
    rw [validateTranslations]
    have htf : t ∈ targets.filter
        (fun t => !((parsed.map Prod.fst).contains t)) :=
      List.mem_filter.mpr ⟨ht, hmem t _ hmiss⟩
    rw [if_pos (List.ne_nil_of_mem htf)]
    rfl
  · intro name fieldData l hl hmiss
    rw [validateTextField]
    have hlf : l ∈ VALID_LANGUAGES.filter
        (fun l => !((fieldData.map Prod.fst).contains l)) :=
      List.mem_filter.mpr ⟨hl, hmem l _ hmiss⟩
    rw [if_pos (List.ne_nil_of_mem hlf)]
    rfl
  · intro m
    refine ⟨?_, ?_, ?_⟩
    · intro l hl
      rw [repairMaintenanceHistory, List.map_append, List.mem_append]
      by_cases hin : l ∈ m.map Prod.fst
      · exact Or.inl hin
      · refine Or.inr ?_
        have : (l, "") ∈ (VALID_LANGUAGES.filter
            (fun l => !((m.map Prod.fst).contains l))).map
              (fun l => (l, "")) :=
          List.mem_map.mpr ⟨l, List.mem_filter.mpr ⟨hl, hmem l _ hin⟩, rfl⟩
        exact List.mem_map.mpr ⟨(l, ""), this, rfl⟩
    · intro l hl hmiss
      rw [repairMaintenanceHistory, List.mem_append]
      exact Or.inr (List.mem_map.mpr
        ⟨l, List.mem_filter.mpr ⟨hl, hmem l _ hmiss⟩, rfl⟩)
    · intro kv hkv
      rw [repairMaintenanceHistory, List.mem_append]
      exact Or.inl hkv

/-- Witness for `language_map_validation_behavior` at concrete inputs. -/
theorem language_map_validation_behavior_witness :
    exceptIsOk (validateTranslations ["en"] [("ko", "x")]) = false ∧
    exceptIsOk (validateTextField "make" [("ru", "x")]) = false ∧
    ("en", "") ∈ repairMaintenanceHistory [("ru", "x")] :=
  ⟨language_map_validation_behavior.1 ["en"] [("ko", "x")] "en"
      (by decide) (by decide),
    language_map_validation_behavior.2.1 "make" [("ru", "x")] "en"
      (by decide) (by decide),
    (language_map_validation_behavior.2.2 [("ru", "x")]).2.1 "en"
      (by decide) (by decide)⟩

/-! ## JSON extraction from raw model text

Raw generator output is a character list.  `json.loads` is an external
library call; it is a parameter yielding either the parsed string-to-string
object or the message of the raised `json.JSONDecodeError`. -/

/-- Python `str.replace` over character lists: replace every non-overlapping
occurrence of the non-empty pattern, scanning left to right.  The fuel
argument (instantiated with the string length, an upper bound on the number
of steps) makes the recursion structural, hence kernel-evaluable. -/
def pyReplaceAux (pat rep : List Char) : ℕ → List Char → List Char
  | 0, s => s
  | _ + 1, [] => []
  | fuel + 1, c :: rest =>
    if pat ≠ [] ∧ pat.isPrefixOf (c :: rest) then
      rep ++ pyReplaceAux pat rep fuel ((c :: rest).drop pat.length)
    else
      c :: pyReplaceAux pat rep fuel rest

/-- Python `s.replace(pat, rep)` for a non-empty `pat`. -/
def pyReplace (pat rep s : List Char) : List Char :=
  pyReplaceAux pat rep s.length s

/-- Python `s.strip()`: drop whitespace from both ends. -/
def pyStrip (s : List Char) : List Char :=
  ((s.dropWhile Char.isWhitespace).reverse.dropWhile Char.isWhitespace).reverse

/-- `raw.replace("```json", "").replace("```", "").strip()` — the fence
stripping shared by `translate_text`, `generate_listing` and
`extract_vin_fields`. -/
def cleanedOf (raw : List Char) : List Char :=
  pyStrip (pyReplace "```".toList [] (pyReplace "```json".toList [] raw))

/-- Python `s.rfind(c)`: index of the last occurrence, if any. -/
def lastIdxOf (c : Char) (s : List Char) : Option ℕ :=
  match s.reverse.findIdx? (· == c) with
  | none => none
  | some i => some (s.length - 1 - i)

/-- The inner recovery block of `translate_text` (lines 121-152): fence
stripping, locating the first `{` and last `}` (a `ValueError` when either is
absent), `json.loads` on the brace-delimited slice, and target validation.
The error value is the HTTP 500 detail string; every detail embeds
`raw_output[:200]`, the first 200 characters of the raw output. -/
def translateRecover
    (jsonLoads : List Char → Except (List Char) (List (String × String)))
    (targets : List String) (rawOutput : List Char) :
    Except (List Char) (List (String × String)) :=
  let cleaned := cleanedOf rawOutput
  let rawSuffix := ". Raw response: ".toList ++ rawOutput.take 200
  match cleaned.findIdx? (· == '{'), lastIdxOf '}' cleaned with
  | some s, some e =>
    match jsonLoads ((cleaned.drop s).take (e + 1 - s)) with
    | .ok parsed =>
      match validateTranslations targets parsed with
      | .ok obj => .ok obj
      | .error msg =>
        .error ("Error processing translation response: ".toList
          ++ msg.toList ++ rawSuffix)
    | .error emsg =>
      .error ("Failed to parse translation response as JSON: ".toList
        ++ emsg ++ rawSuffix)
  | _, _ =>
    .error ("Error processing translation response: No valid JSON object found in response".toList
      ++ rawSuffix)

/-- The recovery block of `generate_consignee` (app/routers/datagen.py,
lines 121-132): no fence stripping; first `{` and last `}` of the raw output;
any failure — a missing brace or a parse error — is reported as
`Invalid JSON returned: ` with the full raw output attached. -/
def datagenRecover
    (jsonLoads : List Char → Except (List Char) (List (String × String)))
    (rawOutput : List Char) : Except (List Char) (List (String × String)) :=
  match rawOutput.findIdx? (· == '{'), lastIdxOf '}' rawOutput with
  | some s, some e =>
    match jsonLoads ((rawOutput.drop s).take (e + 1 - s)) with
    | .ok parsed => .ok parsed
    | .error _ => .error ("Invalid JSON returned: ".toList ++ rawOutput)
  | _, _ => .error ("Invalid JSON returned: ".toList ++ rawOutput)

/-- The record returned by `extract_vin_fields`
(app/services/openai_client.py, lines 46-70) on BOTH of its paths. -/
structure VinRecord where
  vin : Option String
  car_model : Option String
  manufacturer : Option String
  engine_cc : Option String
  weight : Option String
  manufacture_date : Option String
  raw_response : List Char
  error : Option String
  image_url : String

/-- `extract_vin_fields` after the generator call (lines 43-70): fences are
stripped, `json.loads` is attempted, and on any parse failure a record with
every extracted field defaulted to `None` plus an
`error: "Invalid JSON format"` marker is returned — the function returns a
record on both paths and never raises from the parse step.  Parsed objects
are modelled as string-to-string maps; `dict.get` is `List.lookup`. -/
def extractVinFields
    (jsonLoads : List Char → Except (List Char) (List (String × String)))
    (imageUrl : String) (rawText : List Char) : VinRecord :=
  match jsonLoads (cleanedOf rawText) with
  | .ok parsed =>
    { vin := parsed.lookup "vin", car_model := parsed.lookup "car_model",
      manufacturer := parsed.lookup "manufacturer",
      engine_cc := parsed.lookup "engine_cc", weight := parsed.lookup "weight",
      manufacture_date := parsed.lookup "manufacture_date",
      raw_response := rawText, error := none, image_url := imageUrl }
  | .error _ =>
    { vin := none, car_model := none, manufacturer := none, engine_cc := none,
      weight := none, manufacture_date := none, raw_response := rawText,
      error := some "Invalid JSON format", image_url := imageUrl }

/-- Helper: a character that occurs in no element list of `l`. -/
theorem findIdx_eq_none_of_not_mem (c : Char) (l : List Char) (h : ¬ c ∈ l) :
    l.findIdx? (· == c) = none := by
  rw [List.findIdx?_eq_none_iff]
  intro x hx
  cases hb : x == c
  · rfl
  · exact absurd (by rw [beq_iff_eq] at hb; rw [hb] at hx; exact hx) h

/-- Helper: `rfind` misses when the character is absent. -/
theorem lastIdxOf_eq_none_of_not_mem (c : Char) (l : List Char)
    (h : ¬ c ∈ l) : lastIdxOf c l = none := by
  rw [lastIdxOf, findIdx_eq_none_of_not_mem c l.reverse
    (by rw [List.mem_reverse]; exact h)]

/-- C7.  A raw model text that, after fence stripping, contains no `{` or no
`}` (the empty string included) makes both recovery call sites fail with
their handled no-JSON error — `translate_text` with its HTTP 500 detail
citing `No valid JSON object found in response`, `generate_consignee` with
`Invalid JSON returned:` — never reaching the parser, for every parser
oracle. -/
theorem recovery_no_brace_handled :
    (∀ jsonLoads targets rawOutput,
      (¬ '{' ∈ cleanedOf rawOutput ∨ ¬ '}' ∈ cleanedOf rawOutput) →
      translateRecover jsonLoads targets rawOutput
        = .error ("Error processing translation response: No valid JSON object found in response".toList
            ++ (". Raw response: ".toList ++ rawOutput.take 200))) ∧
    (∀ jsonLoads rawOutput,
      (¬ '{' ∈ rawOutput ∨ ¬ '}' ∈ rawOutput) →
      datagenRecover jsonLoads rawOutput
        = .error ("Invalid JSON returned: ".toList ++ rawOutput)) := by
  constructor
  · intro jsonLoads targets rawOutput h
    rw [translateRecover]
    rcases h with h | h
    · rw [findIdx_eq_none_of_not_mem _ _ h]
    · rw [lastIdxOf_eq_none_of_not_mem _ _ h]
      rcases (cleanedOf rawOutput).findIdx? (· == '{') with _ | s <;> rfl
  · intro jsonLoads rawOutput h
    rw [datagenRecover]
    rcases h with h | h
    · rw [findIdx_eq_none_of_not_mem _ _ h]
    · rw [lastIdxOf_eq_none_of_not_mem _ _ h]
      rcases rawOutput.findIdx? (· == '{') with _ | s <;> rfl

/-- Witness for `recovery_no_brace_handled` at the concrete raw texts
`"no braces here"` (translate) and `""` (datagen). -/
theorem recovery_no_brace_handled_witness :
    (¬ '{' ∈ cleanedOf "no braces here".toList) ∧
    translateRecover (fun _ => Except.error []) [] "no braces here".toList
      = .error ("Error processing translation response: No valid JSON object found in response".toList
          ++ (". Raw response: ".toList ++ "no braces here".toList.take 200)) ∧
    datagenRecover (fun _ => Except.error []) "".toList
      = .error ("Invalid JSON returned: ".toList ++ "".toList) :=
  ⟨by decide,
    recovery_no_brace_handled.1 (fun _ => Except.error []) []
      "no braces here".toList (Or.inl (by decide)),
    recovery_no_brace_handled.2 (fun _ => Except.error [])
      "".toList (Or.inl (by decide))⟩

set_option maxRecDepth 8192

/-- C5, counterexample.  For the 300-character raw output `"xx…x"`, recovery
fails (no JSON found) and `translate_text` aborts with an HTTP 500 — but the
error detail embeds only `raw_output[:200]`.  The full offending raw text is
not carried: it is not even an infix of the detail (the detail holds 200
consecutive `x`s, the raw text 300). -/
theorem translate_error_truncates_raw_claim_false :
    translateRecover (fun _ => Except.error []) [] (List.replicate 300 'x')
      = .error ("Error processing translation response: No valid JSON object found in response".toList
          ++ (". Raw response: ".toList ++ List.replicate 200 'x')) ∧
    ¬ (List.replicate 300 'x') <:+:
      ("Error processing translation response: No valid JSON object found in response".toList
        ++ (". Raw response: ".toList ++ List.replicate 200 'x')) := by
  constructor
  · rfl
  · intro h
    exact absurd (h.sublist.count_le 'x') (by decide)

/-- C5, amended.  In `translate_text` every recovery failure aborts the call,
but its error detail carries only the first 200 characters of the raw text
(every error path's detail ends in `raw_output[:200]`); in
`extract_vin_fields` a malformed-JSON response does not abort the call at
all: a partial record with every extracted field defaulted to `None`, an
`Invalid JSON format` marker and the full raw text is returned. -/
theorem recovery_failure_surfaced_behavior :
    (∀ jsonLoads targets rawOutput errDetail,
      translateRecover jsonLoads targets rawOutput = .error errDetail →
      ∃ pre, errDetail = pre ++ rawOutput.take 200) ∧
    (∀ jsonLoads imageUrl rawText emsg,
      jsonLoads (cleanedOf rawText) = .error emsg →
      extractVinFields jsonLoads imageUrl rawText =
        { vin := none, car_model := none, manufacturer := none,
          engine_cc := none, weight := none, manufacture_date := none,
          raw_response := rawText, error := some "Invalid JSON format",
          image_url := imageUrl }) := by
  constructor
  · intro jsonLoads targets rawOutput errDetail h
    rw [translateRecover] at h
    split at h
    · split at h
      · split at h
        · exact Except.noConfusion h
        · rename_i msg hmsg
          rw [Except.error.injEq] at h
          refine ⟨"Error processing translation response: ".toList
            ++ msg.toList ++ ". Raw response: ".toList, ?_⟩
          rw [← h]
          simp [List.append_assoc]
      · rename_i emsg hemsg
        rw [Except.error.injEq] at h
        refine ⟨"Failed to parse translation response as JSON: ".toList
          ++ emsg ++ ". Raw response: ".toList, ?_⟩
        rw [← h]
        simp [List.append_assoc]
    · rw [Except.error.injEq] at h
      refine ⟨"Error processing translation response: No valid JSON object found in response".toList
        ++ ". Raw response: ".toList, ?_⟩
      rw [← h]
      simp [List.append_assoc]
  · intro jsonLoads imageUrl rawText emsg h
    rw [extractVinFields, h]

/-- Witness for `recovery_failure_surfaced_behavior` at concrete inputs. -/
theorem recovery_failure_surfaced_behavior_witness :
    (∃ pre,
      ("Error processing translation response: No valid JSON object found in response".toList
        ++ (". Raw response: ".toList ++ "hi".toList.take 200))
        = pre ++ "hi".toList.take 200) ∧
    extractVinFields (fun _ => Except.error []) "url" "oops".toList =
      { vin := none, car_model := none, manufacturer := none,
        engine_cc := none, weight := none, manufacture_date := none,
        raw_response := "oops".toList, error := some "Invalid JSON format",
        image_url := "url" } :=
  ⟨recovery_failure_surfaced_behavior.1 (fun _ => Except.error []) []
      "hi".toList _ rfl,
    recovery_failure_surfaced_behavior.2 (fun _ => Except.error [])
      "url" "oops".toList [] rfl⟩

/-! ## DnCNN (app/models/dncnn.py) and the denoise stage of `enhance_image` -/

/-- A (channels, height, width) tensor of exact rationals (standing for the
float32 values); entries outside the stated bounds are irrelevant.  The batch
dimension is always 1 and is left implicit. -/
structure Tensor where
  c : ℕ
  h : ℕ
  w : ℕ
  data : ℕ → ℕ → ℕ → ℚ

/-- PyTorch's output size of a stride-1 convolution, `n + 2*pad - k + 1`
(associated so that `ℕ`-truncation puts the degenerate too-small inputs at
0). -/
def convOutDim (n k pad : ℕ) : ℕ := n + 2 * pad + 1 - k

/-- Reading tensor data with zero padding (`nn.Conv2d`'s default
`padding_mode='zeros'`). -/
def paddedAt (x : Tensor) (ci : ℕ) (r s : ℤ) : ℚ :=
  if 0 ≤ r ∧ r < (x.h : ℤ) ∧ 0 ≤ s ∧ s < (x.w : ℤ) then
    x.data ci r.toNat s.toNat
  else 0

/-- One learned filter bank: `weight co ci a b` and `bias co`. -/
structure ConvWeights where
  weight : ℕ → ℕ → ℕ → ℕ → ℚ
  bias : ℕ → ℚ

/-- `nn.Conv2d(cin, cout, k, padding=pad)` applied to `x` (stride 1). -/
def conv2d (wb : ConvWeights) (cin cout k pad : ℕ) (x : Tensor) : Tensor :=
  { c := cout, h := convOutDim x.h k pad, w := convOutDim x.w k pad,
    data := fun co i j =>
      wb.bias co + ∑ ci ∈ Finset.range cin, ∑ a ∈ Finset.range k,
        ∑ b ∈ Finset.range k,
          wb.weight co ci a b
            * paddedAt x ci ((i : ℤ) + (a : ℤ) - (pad : ℤ))
                ((j : ℤ) + (b : ℤ) - (pad : ℤ)) }

/-- Elementwise `nn.ReLU`. -/
def reluT (x : Tensor) : Tensor :=
  { x with data := fun ci i j => max 0 (x.data ci i j) }

/-- The frozen DnCNN weights: `in_conv`, the `conv_list` banks
(`num_layers - 2` of them; 18 for the enhancer's `num_layers=20`), and
`out_conv`.  Every layer is a 3×3 convolution with padding 1; the enhancer
instantiates `channels=1`, `features=64`. -/
structure DnCNNWeights where
  in_conv : ConvWeights
  conv_list : List ConvWeights
  out_conv : ConvWeights

/-- `features=64` of `DnCNN.__init__`. -/
def FEATURES : ℕ := 64

/-- The convolution stack of `DnCNN.forward` (dncnn.py lines 15-18) — the
predicted residual: `out = relu(in_conv(x))`; `out = relu(layer(out))` for
each `conv_list` layer; `out = out_conv(out)`. -/
def dncnnResidual (m : DnCNNWeights) (x : Tensor) : Tensor :=
  let out := reluT (conv2d m.in_conv 1 FEATURES 3 1 x)
  let out := m.conv_list.foldl
    (fun acc l => reluT (conv2d l FEATURES FEATURES 3 1 acc)) out
  conv2d m.out_conv FEATURES 1 3 1 out

/-- `DnCNN.forward` (dncnn.py line 19): `return x - out`, the elementwise
difference of the input and the predicted residual. -/
def dncnnForward (m : DnCNNWeights) (x : Tensor) : Tensor :=
  let out := dncnnResidual m x
  { c := x.c, h := x.h, w := x.w,
    data := fun ci i j => x.data ci i j - out.data ci i j }

/-- Lines 55-56 of `enhance_image`: `torch.from_numpy(img/255.0)[None, None]`
— the 8-bit image scaled to [0,1] as a (1, H, W) tensor. -/
def inputTensor (hgt wdt : ℕ) (img : ℕ → ℕ → ℕ) : Tensor :=
  { c := 1, h := hgt, w := wdt, data := fun _ i j => (img i j : ℚ) / 255 }

/-- Lines 55-61 of `enhance_image`: run the model on the scaled input and
convert back: `(np.clip(out, 0, 1) * 255).astype(np.uint8)` — clip to [0,1],
rescale, truncate (floor, the value being nonnegative). -/
def denoiseStage (m : DnCNNWeights) (hgt wdt : ℕ) (img : ℕ → ℕ → ℕ) :
    ℕ → ℕ → ℤ :=
  fun i j =>
    ⌊min 1 (max 0 ((dncnnForward m (inputTensor hgt wdt img)).data 0 i j))
      * 255⌋

/-- C6.  The network returns the input minus the residual predicted by its
convolution stack — it never directly outputs pixel values — and the enhanced
8-bit image is the clip of that difference to [0,1], rescaled to [0,255]. -/
theorem denoise_residual_formula (m : DnCNNWeights) (hgt wdt : ℕ)
    (img : ℕ → ℕ → ℕ) (i j : ℕ) :
    (dncnnForward m (inputTensor hgt wdt img)).data 0 i j
      = (img i j : ℚ) / 255
        - (dncnnResidual m (inputTensor hgt wdt img)).data 0 i j ∧
    denoiseStage m hgt wdt img i j
      = ⌊255 * min 1 (max 0 ((img i j : ℚ) / 255
          - (dncnnResidual m (inputTensor hgt wdt img)).data 0 i j))⌋ := by
  refine ⟨rfl, ?_⟩
  rw [denoiseStage]
  rw [mul_comm]
  rfl

/-- Helper: the body layers preserve spatial dimensions. -/
theorem foldl_conv_dims (ls : List ConvWeights) (acc : Tensor) :
    (ls.foldl (fun acc l => reluT (conv2d l FEATURES FEATURES 3 1 acc))
        acc).h
      = acc.h ∧
    (ls.foldl (fun acc l => reluT (conv2d l FEATURES FEATURES 3 1 acc))
        acc).w
      = acc.w := by
  induction ls generalizing acc with
  | nil => exact ⟨rfl, rfl⟩
  | cons l rest ih =>
    simp only [List.foldl_cons]
    refine ⟨?_, ?_⟩
    · rw [(ih (reluT (conv2d l FEATURES FEATURES 3 1 acc))).1]
      show convOutDim acc.h 3 1 = acc.h
      rw [convOutDim]
      omega
    · rw [(ih (reluT (conv2d l FEATURES FEATURES 3 1 acc))).2]
      show convOutDim acc.w 3 1 = acc.w
      rw [convOutDim]
      omega

/-- C9.  For every weight assignment and every input of height `H ≥ 1` and
width `W ≥ 1`, the network's output — and already its residual stack, whose
layers are all 3×3 convolutions with padding 1 — has exactly the input's
spatial shape and a single channel, so the same weights serve arbitrary
spatial sizes. -/
theorem dncnn_preserves_shape (m : DnCNNWeights) (x : Tensor)
    (hh : 1 ≤ x.h) (hw : 1 ≤ x.w) :
    (dncnnResidual m x).c = 1 ∧
    (dncnnResidual m x).h = x.h ∧ (dncnnResidual m x).w = x.w ∧
    (dncnnForward m x).h = x.h ∧ (dncnnForward m x).w = x.w := by
  refine ⟨rfl, ?_, ?_, rfl, rfl⟩
  · have h1 := (foldl_conv_dims m.conv_list
      (reluT (conv2d m.in_conv 1 FEATURES 3 1 x))).1
    show convOutDim (m.conv_list.foldl
      (fun acc l => reluT (conv2d l FEATURES FEATURES 3 1 acc))
      (reluT (conv2d m.in_conv 1 FEATURES 3 1 x))).h 3 1 = x.h
    rw [h1]
    show convOutDim (convOutDim x.h 3 1) 3 1 = x.h
    rw [convOutDim, convOutDim]
    omega
  · have h1 := (foldl_conv_dims m.conv_list
      (reluT (conv2d m.in_conv 1 FEATURES 3 1 x))).2
    show convOutDim (m.conv_list.foldl
      (fun acc l => reluT (conv2d l FEATURES FEATURES 3 1 acc))
      (reluT (conv2d m.in_conv 1 FEATURES 3 1 x))).w 3 1 = x.w
    rw [h1]
    show convOutDim (convOutDim x.w 3 1) 3 1 = x.w
    rw [convOutDim, convOutDim]
    omega

/-- Witness for `dncnn_preserves_shape` at a concrete weight assignment and a
concrete 5×7 input. -/
theorem dncnn_preserves_shape_witness :
    (dncnnResidual
        ⟨⟨fun _ _ _ _ => 0, fun _ => 0⟩, [], ⟨fun _ _ _ _ => 0, fun _ => 0⟩⟩
        ⟨1, 5, 7, fun _ _ _ => 0⟩).h = 5 ∧
    (dncnnResidual
        ⟨⟨fun _ _ _ _ => 0, fun _ => 0⟩, [], ⟨fun _ _ _ _ => 0, fun _ => 0⟩⟩
        ⟨1, 5, 7, fun _ _ _ => 0⟩).w = 7 :=
  ⟨(dncnn_preserves_shape
      ⟨⟨fun _ _ _ _ => 0, fun _ => 0⟩, [], ⟨fun _ _ _ _ => 0, fun _ => 0⟩⟩
      ⟨1, 5, 7, fun _ _ _ => 0⟩ (by decide) (by decide)).2.1,
    (dncnn_preserves_shape
      ⟨⟨fun _ _ _ _ => 0, fun _ => 0⟩, [], ⟨fun _ _ _ _ => 0, fun _ => 0⟩⟩
      ⟨1, 5, 7, fun _ _ _ => 0⟩ (by decide) (by decide)).2.2.1⟩

/-! ## Sharpening stage (app/services/enhancer.py, lines 64-65)

`unsharp_mask(img/255.0, radius=1.0, amount=1.5, preserve_range=True)` from
`skimage.filters`, followed by `(np.clip(sharp, 0, 1)*255).astype(np.uint8)`.
skimage computes `blurred = gaussian(image, sigma=radius, mode='nearest')` and
`result = image + (image - blurred) * amount` (no internal clipping when
`preserve_range=True`).  The Gaussian filter is scipy's: per axis a 1-D
correlation with the kernel `exp(-x^2/2)` for offsets `x ∈ [-4, 4]`
(`truncate=4.0`, radius `int(4.0*1.0 + 0.5) = 4`), normalized to sum 1, with
`nearest` (clamp) boundary handling.  Values are reals: the kernel weights
are values of `Real.exp`. -/


/-- The unnormalized Gaussian kernel weight at tap `t ∈ [0, 8]`
(offset `t - 4`): `exp(-(t-4)^2/2)`, sigma 1. -/
noncomputable def gaussWeight (t : ℕ) : ℝ := Real.exp (-(((t : ℝ) - 4)^2) / 2)

/-- The kernel normalizer `phi_x.sum()`. -/
noncomputable def gaussNorm : ℝ := ∑ t ∈ Finset.range 9, gaussWeight t

/-- `mode='nearest'` boundary handling: clamp an index into `[0, n-1]`. -/
def clampIdx (n : ℕ) (i : ℤ) : ℕ := if i < 0 then 0 else min i.toNat (n - 1)

/-- One 1-D Gaussian correlation pass along axis 0 (rows). -/
noncomputable def gaussPassV (hgt : ℕ) (f : ℕ → ℕ → ℝ) : ℕ → ℕ → ℝ :=
  fun i j => (∑ t ∈ Finset.range 9,
    gaussWeight t * f (clampIdx hgt ((i : ℤ) + (t : ℤ) - 4)) j) / gaussNorm

/-- One 1-D Gaussian correlation pass along axis 1 (columns). -/
noncomputable def gaussPassH (wdt : ℕ) (f : ℕ → ℕ → ℝ) : ℕ → ℕ → ℝ :=
  fun i j => (∑ t ∈ Finset.range 9,
    gaussWeight t * f i (clampIdx wdt ((j : ℤ) + (t : ℤ) - 4))) / gaussNorm

/-- `skimage.filters.gaussian(image, sigma=1.0, mode='nearest')`: the
separable filter, axis 0 then axis 1. -/
noncomputable def gaussianBlur (hgt wdt : ℕ) (f : ℕ → ℕ → ℝ) : ℕ → ℕ → ℝ :=
  gaussPassH wdt (gaussPassV hgt f)

/-- Helper: every kernel weight is positive. -/
theorem gaussWeight_pos (t : ℕ) : 0 < gaussWeight t := Real.exp_pos _

/-- Helper: the kernel normalizer is positive. -/
theorem gaussNorm_pos : 0 < gaussNorm := by
  rw [gaussNorm]
  exact Finset.sum_pos (fun t _ => gaussWeight_pos t)
    (Finset.nonempty_range_iff.mpr (by norm_num))

/-- Helper: on a single-row axis every clamped index is 0. -/
theorem clampIdx_one (z : ℤ) : clampIdx 1 z = 0 := by
  rw [clampIdx]
  split
  · rfl
  · simp

/-- Helper: the vertical pass is the identity on a height-1 image. -/
theorem gaussPassV_one (f : ℕ → ℕ → ℝ) (i j : ℕ) :
    gaussPassV 1 f i j = f 0 j := by
  show (∑ t ∈ Finset.range 9,
    gaussWeight t * f (clampIdx 1 ((i : ℤ) + (t : ℤ) - 4)) j) / gaussNorm = f 0 j
  have hcong : ∀ t ∈ Finset.range 9,
      gaussWeight t * f (clampIdx 1 ((i : ℤ) + (t : ℤ) - 4)) j
        = gaussWeight t * f 0 j := fun t _ => by rw [clampIdx_one]
  rw [Finset.sum_congr rfl hcong, ← Finset.sum_mul, ← gaussNorm]
  exact mul_div_cancel_left₀ _ (ne_of_gt gaussNorm_pos)

/-- Helper: the blur of a 1×2 image `[0, o]` at pixel (0,1) is the
tail-weight fraction of `o`. -/
theorem blur_concrete (f : ℕ → ℕ → ℝ) (h0 : f 0 0 = 0) (h1 : f 0 1 = 128/255) :
    gaussianBlur 1 2 f 0 1
      = (gaussWeight 4 + (gaussWeight 5 + (gaussWeight 6 + (gaussWeight 7
          + gaussWeight 8)))) * (128/255) / gaussNorm := by
  show gaussPassH 2 (gaussPassV 1 f) 0 1 = _
  rw [gaussPassH]
  rw [Finset.sum_range_succ, Finset.sum_range_succ, Finset.sum_range_succ,
    Finset.sum_range_succ, Finset.sum_range_succ, Finset.sum_range_succ,
    Finset.sum_range_succ, Finset.sum_range_succ, Finset.sum_range_succ,
    Finset.sum_range_zero]
  norm_num [clampIdx]
  rw [gaussPassV_one f 0 0, gaussPassV_one f 0 1, h0, h1]
  ring

/-- `skimage.filters.unsharp_mask` on a float single-channel image with
`preserve_range=True`: `result = image + (image - blurred) * amount` with no
internal clipping. -/
noncomputable def unsharpMask (amount : ℝ) (hgt wdt : ℕ) (f : ℕ → ℕ → ℝ) :
    ℕ → ℕ → ℝ :=
  fun i j => f i j + (f i j - gaussianBlur hgt wdt f i j) * amount

/-- `img / 255.0`: the 8-bit image on the [0,1] scale. -/
noncomputable def toUnit (img : ℕ → ℕ → ℕ) : ℕ → ℕ → ℝ :=
  fun i j => (img i j : ℝ) / 255

/-- Lines 64-65 of `enhance_image`: `unsharp_mask(img/255.0, radius=1.0,
amount=1.5, preserve_range=True)` followed by
`(np.clip(sharp, 0, 1) * 255).astype(np.uint8)` (truncation = floor of a
nonnegative value). -/
noncomputable def sharpenStage (hgt wdt : ℕ) (img : ℕ → ℕ → ℕ) : ℕ → ℕ → ℤ :=
  fun i j =>
    ⌊min 1 (max 0 (unsharpMask (3/2) hgt wdt (toUnit img) i j)) * 255⌋

/-- The sharpening combine exactly as claim C2 states it:
`clamp(1.5*original - 0.5*blurred, 0, 255)` per pixel — written on the [0,1]
scale and converted to 8-bit the same way as the code. -/
noncomputable def specSharpenStage (hgt wdt : ℕ) (img : ℕ → ℕ → ℕ) :
    ℕ → ℕ → ℤ :=
  fun i j =>
    ⌊min 1 (max 0 (3/2 * toUnit img i j
      - 1/2 * gaussianBlur hgt wdt (toUnit img) i j)) * 255⌋

set_option maxHeartbeats 1000000

/-- C2, counterexample.  On the 1×2 image `[0, 128]`, at pixel (0,1), the
code (`unsharp_mask` with `amount=1.5`, i.e.
`original + 1.5*(original - blurred)` = `2.5*original - 1.5*blurred`) and the
claimed formula `clamp(1.5*original - 0.5*blurred, 0, 255)` give different
8-bit results: the code's value is at least 148, the claim's at most 147. -/
theorem sharpen_claim_false :
    sharpenStage 1 2 (fun _ j => if j = 0 then 0 else 128) 0 1
      ≠ specSharpenStage 1 2 (fun _ j => if j = 0 then 0 else 128) 0 1 := by
  have hf0 : toUnit (fun _ j => if j = 0 then 0 else 128) 0 0 = 0 := by
    rw [toUnit]
    norm_num
  have hf1 : toUnit (fun _ j => if j = 0 then 0 else 128) 0 1 = 128/255 := by
    rw [toUnit]
    norm_num
  have h0 : gaussWeight 0 = Real.exp (-(8:ℝ)) := by
    rw [gaussWeight]
    exact congrArg Real.exp (by push_cast; norm_num)
  have h1 : gaussWeight 1 = Real.exp (-(9/2:ℝ)) := by
    rw [gaussWeight]
    exact congrArg Real.exp (by push_cast; norm_num)
  have h2 : gaussWeight 2 = Real.exp (-(2:ℝ)) := by
    rw [gaussWeight]
    exact congrArg Real.exp (by push_cast; norm_num)
  have h3 : gaussWeight 3 = Real.exp (-(1/2:ℝ)) := by
    rw [gaussWeight]
    exact congrArg Real.exp (by push_cast; norm_num)
  have h4 : gaussWeight 4 = 1 := by
    rw [gaussWeight, show (-((((4:ℕ) : ℝ) - 4)^2) / 2) = 0 by push_cast; norm_num]
    exact Real.exp_zero
  have h5 : gaussWeight 5 = Real.exp (-(1/2:ℝ)) := by
    rw [gaussWeight]
    exact congrArg Real.exp (by push_cast; norm_num)
  have h6 : gaussWeight 6 = Real.exp (-(2:ℝ)) := by
    rw [gaussWeight]
    exact congrArg Real.exp (by push_cast; norm_num)
  have h7 : gaussWeight 7 = Real.exp (-(9/2:ℝ)) := by
    rw [gaussWeight]
    exact congrArg Real.exp (by push_cast; norm_num)
  have h8 : gaussWeight 8 = Real.exp (-(8:ℝ)) := by
    rw [gaussWeight]
    exact congrArg Real.exp (by push_cast; norm_num)
  have e1_lt : Real.exp 1 < 2.7182818286 := Real.exp_one_lt_d9
  have e1_gt : (2.7182818283:ℝ) < Real.exp 1 := Real.exp_one_gt_d9
  have e1_pos : (0:ℝ) < Real.exp 1 := Real.exp_pos 1
  have hm05_low : (5:ℝ)/38 < Real.exp (-(1/2:ℝ)) := by
    have ha : Real.exp (-(1:ℝ)) ≤ Real.exp (-(1/2:ℝ)) :=
      Real.exp_le_exp.mpr (by norm_num)
    have hb2 : (2.7182818286:ℝ)⁻¹ < (Real.exp 1)⁻¹ := inv_strictAnti₀ e1_pos e1_lt
    have hc : (5:ℝ)/38 < (2.7182818286:ℝ)⁻¹ := by norm_num
    calc (5:ℝ)/38 < (2.7182818286:ℝ)⁻¹ := hc
      _ < (Real.exp 1)⁻¹ := hb2
      _ = Real.exp (-(1:ℝ)) := (Real.exp_neg 1).symm
      _ ≤ Real.exp (-(1/2:ℝ)) := ha
  have hm1_lt : Real.exp (-(1:ℝ)) < 0.371 := by
    rw [Real.exp_neg]
    have h27 : (2.7:ℝ) < Real.exp 1 := lt_trans (by norm_num) e1_gt
    calc (Real.exp 1)⁻¹ < (2.7:ℝ)⁻¹ := inv_strictAnti₀ (by norm_num) h27
      _ < 0.371 := by norm_num
  have hm05_up : Real.exp (-(1/2:ℝ)) < 5/8 := by
    have hsq : Real.exp (-(1/2:ℝ)) * Real.exp (-(1/2:ℝ)) = Real.exp (-(1:ℝ)) := by
      rw [← Real.exp_add]
      norm_num
    nlinarith [Real.exp_pos (-(1/2):ℝ)]
  have hsqe : Real.exp 1 * Real.exp 1 = Real.exp 2 := by
    rw [← Real.exp_add]
    norm_num
  have he2 : (7:ℝ) < Real.exp 2 := by nlinarith
  have hm2_up : Real.exp (-(2:ℝ)) < 1/7 := by
    rw [Real.exp_neg]
    have := inv_strictAnti₀ (by norm_num : (0:ℝ) < 7) he2
    simpa using this
  have hsq4 : Real.exp 2 * Real.exp 2 = Real.exp 4 := by
    rw [← Real.exp_add]
    norm_num
  have he4 : (49:ℝ) < Real.exp 4 := by nlinarith [Real.exp_pos (2:ℝ)]
  have hm4_up : Real.exp (-(4:ℝ)) < 1/49 := by
    rw [Real.exp_neg]
    have := inv_strictAnti₀ (by norm_num : (0:ℝ) < 49) he4
    simpa using this
  have hm45_up : Real.exp (-(9/2:ℝ)) < 1/49 := by
    have := Real.exp_le_exp.mpr (by norm_num : (-(9/2:ℝ)) ≤ -(4:ℝ))
    linarith
  have hm8_up : Real.exp (-(8:ℝ)) < 1/49 := by
    have := Real.exp_le_exp.mpr (by norm_num : (-(8:ℝ)) ≤ -(4:ℝ))
    linarith
  have hw_low : (5:ℝ)/38
      < Real.exp (-(1/2:ℝ)) + Real.exp (-(2:ℝ)) + Real.exp (-(9/2:ℝ))
        + Real.exp (-(8:ℝ)) := by
    have p2 := Real.exp_pos (-(2:ℝ))
    have p45 := Real.exp_pos (-(9/2):ℝ)
    have p8 := Real.exp_pos (-(8:ℝ))
    linarith
  have hw_up : Real.exp (-(1/2:ℝ)) + Real.exp (-(2:ℝ)) + Real.exp (-(9/2:ℝ))
      + Real.exp (-(8:ℝ)) < 317/392 := by
    linarith
  have hw_pos : (0:ℝ) < Real.exp (-(1/2:ℝ)) + Real.exp (-(2:ℝ))
      + Real.exp (-(9/2:ℝ)) + Real.exp (-(8:ℝ)) := by
    linarith
  have hZw : gaussNorm
      = 1 + 2 * (Real.exp (-(1/2:ℝ)) + Real.exp (-(2:ℝ)) + Real.exp (-(9/2:ℝ))
          + Real.exp (-(8:ℝ))) := by
    rw [gaussNorm, Finset.sum_range_succ, Finset.sum_range_succ,
      Finset.sum_range_succ, Finset.sum_range_succ, Finset.sum_range_succ,
      Finset.sum_range_succ, Finset.sum_range_succ, Finset.sum_range_succ,
      Finset.sum_range_succ, Finset.sum_range_zero,
      h0, h1, h2, h3, h4, h5, h6, h7, h8]
    ring
  have hZ_pos : (0:ℝ) < 1 + 2 * (Real.exp (-(1/2:ℝ)) + Real.exp (-(2:ℝ))
      + Real.exp (-(9/2:ℝ)) + Real.exp (-(8:ℝ))) := by linarith
  have hb : gaussianBlur 1 2 (toUnit (fun _ j => if j = 0 then 0 else 128)) 0 1
      = (1 + (Real.exp (-(1/2:ℝ)) + Real.exp (-(2:ℝ)) + Real.exp (-(9/2:ℝ))
            + Real.exp (-(8:ℝ)))) * (128/255)
          / (1 + 2 * (Real.exp (-(1/2:ℝ)) + Real.exp (-(2:ℝ))
            + Real.exp (-(9/2:ℝ)) + Real.exp (-(8:ℝ)))) := by
    rw [blur_concrete _ hf0 hf1, h4, h5, h6, h7, h8, hZw]
    ring_nf
  generalize hwg : Real.exp (-(1/2:ℝ)) + Real.exp (-(2:ℝ)) + Real.exp (-(9/2:ℝ))
      + Real.exp (-(8:ℝ)) = w at hw_low hw_up hw_pos hZ_pos hb
  have hbb : ((1 + w) * (128/255) / (1 + 2*w)) * (1 + 2*w)
      = (1 + w) * (128/255) := div_mul_cancel₀ _ (ne_of_gt hZ_pos)
  have hob : (128/255 - (1 + w) * (128/255) / (1 + 2*w)) * (1 + 2*w)
      = (128/255) * w := by
    have hx : (128:ℝ)/255 * (1 + 2*w)
        - ((1 + w) * (128/255) / (1 + 2*w)) * (1 + 2*w)
        = (128/255) * w := by
      rw [hbb]
      ring
    linarith [hx, sub_mul (128/255 : ℝ)
      ((1 + w) * (128/255) / (1 + 2*w)) (1 + 2*w)]
  have hB_le : (1 + w) * (128/255) / (1 + 2*w) ≤ 128/255 := by
    rw [div_le_iff₀ hZ_pos]
    linarith [hw_pos]
  have hB_nonneg : (0:ℝ) ≤ (1 + w) * (128/255) / (1 + 2*w) := by
    apply div_nonneg _ (le_of_lt hZ_pos)
    linarith [hw_pos]
  have hOB2 : 128/255 - (1 + w) * (128/255) / (1 + 2*w) ≤ 64/255 := by
    have h2 : (128/255 - (1 + w) * (128/255) / (1 + 2*w)) * (1 + 2*w)
        ≤ (64/255) * (1 + 2*w) := by
      rw [hob]
      linarith [hw_pos]
    exact le_of_mul_le_mul_right h2 hZ_pos
  -- the code-side value
  have hvc_nonneg : (0:ℝ)
      ≤ 128/255 + (128/255 - (1 + w) * (128/255) / (1 + 2*w)) * (3/2) := by
    linarith [hB_le]
  have hvc_le1 :
      128/255 + (128/255 - (1 + w) * (128/255) / (1 + 2*w)) * (3/2) ≤ 1 := by
    linarith [hOB2]
  have hvc_ge : (148:ℝ)
      ≤ (128/255 + (128/255 - (1 + w) * (128/255) / (1 + 2*w)) * (3/2)) * 255 := by
    have hexp : ((128/255 + (128/255 - (1 + w) * (128/255) / (1 + 2*w)) * (3/2))
          * 255) * (1 + 2*w)
        = 128 * (1 + 2*w)
          + (3/2) * 255
            * ((128/255 - (1 + w) * (128/255) / (1 + 2*w)) * (1 + 2*w)) := by
      ring
    have h148 : (148:ℝ) * (1 + 2*w)
        ≤ ((128/255 + (128/255 - (1 + w) * (128/255) / (1 + 2*w)) * (3/2)) * 255)
          * (1 + 2*w) := by
      rw [hexp, hob]
      linarith [hw_low]
    exact le_of_mul_le_mul_right h148 hZ_pos
  -- the spec-side value
  have hvs_nonneg : (0:ℝ)
      ≤ 3/2 * (128/255) - 1/2 * ((1 + w) * (128/255) / (1 + 2*w)) := by
    linarith [hB_le]
  have hvs_le1 :
      3/2 * (128/255) - 1/2 * ((1 + w) * (128/255) / (1 + 2*w)) ≤ 1 := by
    linarith [hB_nonneg]
  have hvs_lt :
      (3/2 * (128/255) - 1/2 * ((1 + w) * (128/255) / (1 + 2*w))) * 255
        < 148 := by
    have hexp2 : ((3/2 * (128/255) - 1/2 * ((1 + w) * (128/255) / (1 + 2*w)))
          * 255) * (1 + 2*w)
        = (3/2) * 128 * (1 + 2*w)
          - (1/2) * 255 * (((1 + w) * (128/255) / (1 + 2*w)) * (1 + 2*w)) := by
      ring
    have h148 : ((3/2 * (128/255) - 1/2 * ((1 + w) * (128/255) / (1 + 2*w))) * 255)
        * (1 + 2*w) < 148 * (1 + 2*w) := by
      rw [hexp2, hbb]
      linarith [hw_up]
    exact lt_of_mul_lt_mul_right h148 (le_of_lt hZ_pos)
  intro hcontra
  rw [sharpenStage, specSharpenStage, unsharpMask] at hcontra
  rw [hf1, hb] at hcontra
  rw [max_eq_right hvc_nonneg, min_eq_right hvc_le1,
    max_eq_right hvs_nonneg, min_eq_right hvs_le1] at hcontra
  have hfl1 : (148:ℤ)
      ≤ ⌊(128/255 + (128/255 - (1 + w) * (128/255) / (1 + 2*w)) * (3/2)) * 255⌋ := by
    rw [Int.le_floor]
    exact_mod_cast hvc_ge
  have hfl2 :
      ⌊(3/2 * (128/255) - 1/2 * ((1 + w) * (128/255) / (1 + 2*w))) * 255⌋
        < 148 := by
    rw [Int.floor_lt]
    exact_mod_cast hvs_lt
  rw [hcontra] at hfl1
  omega

/-- C2, amended.  For every image entering the post-processing stage, the
sharpened image equals, per pixel,
`clamp(2.5*original - 1.5*blurred, 0, 255)` — that is,
`original + 1.5*(original - blurred)`, unsharp masking with amount 1.5 —
where `blurred` is the Gaussian blur (sigma 1) of the original; not the
1.5/0.5 weighting the claim states. -/
theorem sharpen_combine_formula (hgt wdt : ℕ) (img : ℕ → ℕ → ℕ) (i j : ℕ) :
    sharpenStage hgt wdt img i j
      = ⌊min 1 (max 0 (5/2 * toUnit img i j
          - 3/2 * gaussianBlur hgt wdt (toUnit img) i j)) * 255⌋ := by
  rw [sharpenStage, unsharpMask]
  have h : toUnit img i j
      + (toUnit img i j - gaussianBlur hgt wdt (toUnit img) i j) * (3/2)
      = 5/2 * toUnit img i j
        - 3/2 * gaussianBlur hgt wdt (toUnit img) i j := by
    ring
  rw [h]

end ImageEnhancer
